import Mathlib

/-!
# Verification of the currency-rate download/consolidation pipeline

Shallow embedding of the two scripts `scripts/download_historical_rates.py`
and `scripts/consolidate_rates.py`.  Rates are modelled as exact rationals
(`ℚ`); Python string primitives (`str.strip`, `str.split`, `str.startswith`,
slicing, `str.upper`/`lower`, `str.replace(",", ".")`) are modelled as
structurally recursive functions over `List Char` so that every definition
evaluates by `decide`/`rfl`.  Fallible Python code (the uncaught
`ZeroDivisionError` in the CBR adapter) is modelled with `Except Unit`.
-/

/-- The characters Python's `str.strip()` (no argument) removes:
ASCII whitespace as used by `str.isspace` for the ASCII range. -/
def pySpaceChars : List Char := [' ', '\t', '\n', '\r', '\x0b', '\x0c']

/-- Membership test used by the strip functions. -/
def charIn (cs : List Char) (c : Char) : Bool := cs.contains c

/-- Python `s.strip(chars)` on a char list: drop the given characters from
both ends. -/
def pyStripChars (cs : List Char) (s : List Char) : List Char :=
  ((s.dropWhile (charIn cs)).reverse.dropWhile (charIn cs)).reverse

/-- Python `s.strip()` (whitespace strip) on a char list. -/
def pyStripWs (s : List Char) : List Char := pyStripChars pySpaceChars s

/-- Python `s.split(sep)` for a one-character separator: splits on every
occurrence, keeping empty pieces (so `"".split(c) = [""]`). -/
def splitOnChar (sep : Char) : List Char → List (List Char)
  | [] => [[]]
  | c :: cs =>
    let r := splitOnChar sep cs
    if c = sep then [] :: r
    else
      match r with
      | [] => [[c]]
      | h :: t => (c :: h) :: t

/-- Python `s.startswith(p)` on char lists. -/
def startsWithL (p s : List Char) : Bool :=
  match p, s with
  | [], _ => true
  | _ :: _, [] => false
  | a :: ps, b :: ss => a = b && startsWithL ps ss

/-- Python `s.upper()` restricted to the ASCII range (currency codes are
ASCII in this repository). -/
def toUpperL (s : List Char) : List Char := s.map Char.toUpper

/-- Python `s.lower()` restricted to the ASCII range. -/
def toLowerL (s : List Char) : List Char := s.map Char.toLower

/-- Python `s.replace(",", ".")`: the pattern is a single character, so the
replacement is a character map. -/
def replaceCommaDot (s : List Char) : List Char :=
  s.map fun c => if c = ',' then '.' else c

/-- `True` iff every character is an ASCII digit. -/
def allDigits (s : List Char) : Bool := s.all Char.isDigit

/-- Numeric value of a (most-significant-first) ASCII digit list. -/
def natOfDigits (s : List Char) : Nat :=
  s.foldl (fun acc c => 10 * acc + (c.toNat - 48)) 0

/-- The ASCII digit character for `n < 10`. -/
def digitChar (n : Nat) : Char := Char.ofNat (48 + n)

/-- Two-digit zero-padded rendering (as `strftime` `%d` / `%m`). -/
def pad2 (n : Nat) : List Char := [digitChar (n / 10 % 10), digitChar (n % 10)]

/-- Four-digit zero-padded rendering (as `strftime` `%Y` for years ≤ 9999). -/
def pad4 (n : Nat) : List Char :=
  [digitChar (n / 1000 % 10), digitChar (n / 100 % 10),
   digitChar (n / 10 % 10), digitChar (n % 10)]

/-- Number of days in a month, as validated by `datetime.strptime`
(proleptic Gregorian calendar, as Python's `datetime`). -/
def daysInMonth (y m : Nat) : Nat :=
  if m = 2 then
    if y % 4 = 0 && (y % 100 ≠ 0 || y % 400 = 0) then 29 else 28
  else if m = 4 || m = 6 || m = 9 || m = 11 then 30
  else 31

/-- The day field of `strptime`'s `%d`: CPython's `_strptime` matches it
with the pattern `3[01]|[12]\d|0[1-9]|[1-9]| [1-9]` (ASCII scope) — one or
two digits valued 1–31, or a space-padded single non-zero digit. -/
def parseDay (ds : List Char) : Option Nat :=
  match ds with
  | [' ', c] => if '1' ≤ c ∧ c ≤ '9' then some (c.toNat - 48) else none
  | _ =>
    if allDigits ds && (ds.length = 1 || ds.length = 2)
        && 1 ≤ natOfDigits ds && natOfDigits ds ≤ 31 then
      some (natOfDigits ds)
    else none

/-- The month field of `strptime`'s `%m`: CPython matches
`1[0-2]|0[1-9]|[1-9]` — one or two digits valued 1–12, no space padding. -/
def parseMonth (ms : List Char) : Option Nat :=
  if allDigits ms && (ms.length = 1 || ms.length = 2)
      && 1 ≤ natOfDigits ms && natOfDigits ms ≤ 12 then
    some (natOfDigits ms)
  else none

/-- The year field of `strptime`'s `%Y`: CPython matches `\d\d\d\d` —
exactly four digits. -/
def parseYear (ys : List Char) : Option Nat :=
  if allDigits ys && ys.length = 4 then some (natOfDigits ys) else none

/-- `strftime("%Y")` as rendered here (glibc): the year as a plain decimal
number, with no zero padding (year 900 renders as `900`). -/
def renderYear (y : Nat) : List Char :=
  if y < 10 then [digitChar y]
  else if y < 100 then [digitChar (y / 10), digitChar (y % 10)]
  else if y < 1000 then [digitChar (y / 100), digitChar (y / 10 % 10), digitChar (y % 10)]
  else pad4 y

/-- `datetime.strptime(s, "%d.%m.%Y")` followed by `strftime("%Y-%m-%d")`:
the three dot-separated fields must match `%d` / `%m` / `%Y` as CPython's
`_strptime` does (`%Y` exactly four digits), and the `datetime` constructor
then validates the calendar date (years 1–9999, day within the month,
proleptic Gregorian).  Rendering zero-pads month and day to two digits and
leaves the year unpadded.  Returns `none` where `strptime` raises
`ValueError` (and the record loop `continue`s). -/
def parseCbrDate (s : String) : Option String :=
  match splitOnChar '.' s.data with
  | [ds, ms, ys] =>
    match parseDay ds, parseMonth ms, parseYear ys with
    | some d, some m, some y =>
      if 1 ≤ y && d ≤ daysInMonth y m then
        some (String.mk (renderYear y ++ '-' :: pad2 m ++ '-' :: pad2 d))
      else none
    | _, _, _ => none
  | _ => none

/-- Python `float(s)` restricted to the plain decimal forms the providers and
stored files use: optional surrounding whitespace, optional sign, digits with
an optional decimal point (at least one digit overall; exponent/`inf`/`nan`
forms, which never occur in this data, are out of scope and map to `none`). -/
def parseDecimal (s : List Char) : Option ℚ :=
  let s := pyStripWs s
  let (sign, body) : ℚ × List Char :=
    match s with
    | '-' :: r => (-1, r)
    | '+' :: r => (1, r)
    | r => (1, r)
  match splitOnChar '.' body with
  | [ip] =>
    if allDigits ip && ip ≠ [] then some (sign * natOfDigits ip) else none
  | [ip, fp] =>
    if allDigits ip && allDigits fp && (ip ≠ [] || fp ≠ []) then
      some (sign * ((natOfDigits ip : ℚ) + (natOfDigits fp : ℚ) / 10 ^ fp.length))
    else none
  | _ => none

/-- Python `int(s)`: optional surrounding whitespace, optional sign, a
non-empty run of digits. -/
def parsePyInt (s : List Char) : Option Int :=
  let s := pyStripWs s
  let (sign, body) : Int × List Char :=
    match s with
    | '-' :: r => (-1, r)
    | '+' :: r => (1, r)
    | r => (1, r)
  if allDigits body && body ≠ [] then some (sign * natOfDigits body) else none

/-- One `<Record>` of the CBR `XML_dynamic` response, as accessed by
`download_cbr_rates`: the `Date` attribute (`record.get("Date")`, `none` when
absent), the text of the `<Value>` child (`none` when the element or its text
is absent), and the text of the `<Nominal>` child. -/
structure CbrRecord where
  dateAttr : Option String
  valueText : Option String
  nominalText : Option String

/-- The nominal of a CBR record (`download_historical_rates.py` lines
216–221): defaults to `1` when the `<Nominal>` element or its text is absent
(Python truthiness: empty text is falsy) or when `int()` fails. -/
def nominalOf : Option String → Int
  | none => 1
  | some t =>
    if t = "" then 1
    else
      match parsePyInt t.data with
      | some n => n
      | none => 1

/-- A rate triple `(from_currency, to_currency, date, rate)`. -/
abbrev Triple := String × String × String × ℚ

/-- The body of the record loop of `download_cbr_rates` (lines 195–235) for a
single record: `.ok none` when the record is skipped (missing/empty/
unparseable date or value), `.error ()` when Python raises an uncaught
`ZeroDivisionError` (`nominal / rate` with `rate == 0`, or `rate / nominal`
with `nominal == 0`), and otherwise `.ok (some (date, nominal / rate,
rate / nominal))` — the converted date with the two directional rates. -/
def processCbrRecord (rec : CbrRecord) : Except Unit (Option (String × ℚ × ℚ)) :=
  match rec.dateAttr, rec.valueText with
  | some dateAttr, some valueText =>
    if dateAttr = "" || valueText = "" then .ok none
    else
      match parseCbrDate dateAttr with
      | none => .ok none
      | some dateStr =>
        match parseDecimal (replaceCommaDot valueText.data) with
        | none => .ok none
        | some rate =>
          let nominal := nominalOf rec.nominalText
          if rate = 0 then .error ()
          else if nominal = 0 then .error ()
          else .ok (some (dateStr, (nominal : ℚ) / rate, rate / (nominal : ℚ)))
  | _, _ => .ok none

/-- The two triples one accepted CBR record contributes (lines 228–233):
`(RUB, currency, date, nominal / rate)` is appended to
`all_rates[("RUB", currency)]` and `(currency, RUB, date, rate / nominal)`
to `all_rates[(currency, "RUB")]`. -/
def cbrRecordTriples (currency : String) (rec : CbrRecord) :
    Except Unit (List Triple) :=
  match processCbrRecord rec with
  | .error e => .error e
  | .ok none => .ok []
  | .ok (some (dateStr, rubToForeign, foreignToRub)) =>
    .ok [("RUB", currency, dateStr, rubToForeign),
         (currency, "RUB", dateStr, foreignToRub)]

/-- All triples contributed by one CBR response's record list, in record
order; an uncaught `ZeroDivisionError` in any record aborts the whole run. -/
def cbrRecordsTriples (currency : String) : List CbrRecord → Except Unit (List Triple)
  | [] => .ok []
  | rec :: recs =>
    match cbrRecordTriples currency rec with
    | .error e => .error e
    | .ok ts =>
      match cbrRecordsTriples currency recs with
      | .error e => .error e
      | .ok rest => .ok (ts ++ rest)

/-- `CBR_CURRENCIES` of `download_historical_rates.py` (lines 68–75). -/
def CBR_CURRENCIES : List (String × String) :=
  [("R01235", "USD"), ("R01239", "EUR"), ("R01035", "GBP"),
   ("R01820", "JPY"), ("R01775", "CHF"), ("R01375", "CNY")]

/-- The code loop of `download_cbr_rates` over a list of `(cbr_code,
currency)` pairs; `fetch` abstracts `fetch_xml` (`none` = unreachable after
retries, skipped with zero triples, lines 237–238). -/
def downloadCbrTriplesAux (fetch : String → Option (List CbrRecord)) :
    List (String × String) → Except Unit (List Triple)
  | [] => .ok []
  | cc :: rest =>
    match (match fetch cc.1 with
           | none => .ok []
           | some recs => cbrRecordsTriples cc.2 recs : Except Unit (List Triple)) with
    | .error e => .error e
    | .ok ts =>
      match downloadCbrTriplesAux fetch rest with
      | .error e => .error e
      | .ok later => .ok (ts ++ later)

/-- All triples accumulated by `download_cbr_rates` over the configured CBR
codes. -/
def downloadCbrTriples (fetch : String → Option (List CbrRecord)) :
    Except Unit (List Triple) :=
  downloadCbrTriplesAux fetch CBR_CURRENCIES

/-- `FRANKFURTER_PAIRS` of `download_historical_rates.py` (lines 33–65). -/
def FRANKFURTER_PAIRS : List (String × String) :=
  [("USD", "EUR"), ("USD", "GBP"), ("USD", "JPY"), ("USD", "CHF"),
   ("USD", "CNY"), ("USD", "CAD"), ("USD", "AUD"), ("USD", "NZD"),
   ("USD", "SEK"), ("USD", "NOK"), ("USD", "DKK"), ("USD", "PLN"),
   ("USD", "CZK"), ("USD", "HUF"), ("USD", "TRY"), ("USD", "MXN"),
   ("USD", "BRL"), ("USD", "INR"), ("USD", "KRW"), ("USD", "SGD"),
   ("USD", "HKD"), ("USD", "ZAR"),
   ("EUR", "USD"), ("EUR", "GBP"), ("EUR", "JPY"), ("EUR", "CHF"),
   ("GBP", "USD"), ("GBP", "EUR")]

/-- The `rates` object of a Frankfurter response: a date-keyed mapping to a
currency-keyed mapping of numeric rates.  JSON objects are modelled as
association lists with unique keys; `day_rates[to_curr]` is the first match. -/
abbrev FrankRates := List (String × List (String × ℚ))

/-- The extraction loop of `download_frankfurter_rates` (lines 150–154): for
each date, when the target currency is present in that day's mapping, the
pair `(date, rate)` is kept. -/
def extractFrankfurter (toCurr : String) (rates : FrankRates) :
    List (String × ℚ) :=
  rates.filterMap fun dayEntry =>
    match dayEntry.2.find? (fun cr => cr.1 = toCurr) with
    | some cr => some (dayEntry.1, cr.2)
    | none => none

/-- All triples accumulated by `download_frankfurter_rates` over the
configured pairs.  `fetch` abstracts `fetch_json` together with the
`if data and "rates" in data` guard (lines 145–147): `none` means no usable
response for that pair, which contributes zero triples. -/
def downloadFrankfurterTriples (fetch : String × String → Option FrankRates) :
    List Triple :=
  FRANKFURTER_PAIRS.flatMap fun pair =>
    match fetch pair with
    | none => []
    | some rates =>
      (extractFrankfurter pair.2 rates).map fun dr => (pair.1, pair.2, dr.1, dr.2)

/-- The comparison `sorted(rates, key=lambda x: x[0])` sorts by: date string,
lexicographically. -/
def dateLe (a b : String × ℚ) : Prop := a.1 ≤ b.1

instance : DecidableRel dateLe := fun a b => inferInstanceAs (Decidable (a.1 ≤ b.1))

instance : IsTotal (String × ℚ) dateLe := ⟨fun a b => le_total a.1 b.1⟩

instance : IsTrans (String × ℚ) dateLe := ⟨fun _ _ _ h h' => le_trans h h'⟩

/-- `sorted(rates, key=lambda x: x[0])` / `rates.sort(key=lambda x: x[0])`:
a stable ascending sort by date string.  Python's sort is stable, and a
stable sort under a total preorder is unique, so the structural insertion
sort is extensionally the same function. -/
def sortRates (rates : List (String × ℚ)) : List (String × ℚ) :=
  List.insertionSort dateLe rates

/-- `'\n'.join(lines)`. -/
def joinLines : List String → String
  | [] => ""
  | [l] => l
  | l :: ls => l ++ "\n" ++ joinLines ls

/-- `write_consolidated_lino` of `download_historical_rates.py` (lines
107–129): sorts the rates by date, builds the header and data lines, and
returns the file name `{from}-{to}.lino` (lowercase) together with the
newline-joined, newline-terminated content.  `showRate` abstracts Python's
`str()` rendering of the float rate inside the f-string. -/
def write_consolidated_lino (showRate : ℚ → String) (from_curr to_curr : String)
    (rates : List (String × ℚ)) (src : String) : String × String :=
  let rates_sorted := sortRates rates
  let fileName := String.mk (toLowerL from_curr.data) ++ "-"
    ++ String.mk (toLowerL to_curr.data) ++ ".lino"
  let lines := ["rates:",
                "  from " ++ String.mk (toUpperL from_curr.data),
                "  to " ++ String.mk (toUpperL to_curr.data),
                "  source '" ++ src ++ "'",
                "  data:"]
    ++ rates_sorted.map (fun dr => "    " ++ dr.1 ++ " " ++ showRate dr.2)
  (fileName, joinLines lines ++ "\n")

/-- The write loop of `download_cbr_rates` (lines 244–247) (the Frankfurter
one, lines 163–166, is identical): one file per pair of `all_rates`, written
only when that pair's rate list is non-empty. -/
def cbrWrites (showRate : ℚ → String) (src : String)
    (allRates : List ((String × String) × List (String × ℚ))) :
    List (String × String) :=
  allRates.filterMap fun pr =>
    if pr.2 = [] then none
    else some (write_consolidated_lino showRate pr.1.1 pr.1.2 pr.2 src)

/-- The characters stripped from a stored `source` value
(`src.strip("'\"")`, `consolidate_rates.py` line 57). -/
def quoteChars : List Char := ['\'', '"']

/-- The result of `parse_lino_file` (`consolidate_rates.py` lines 28–60):
the five extracted fields, each `none` when its keyword line never occurred
(the Python variables start as `None`). -/
structure ParsedDay where
  from_curr : Option String := none
  to_curr : Option String := none
  date : Option String := none
  value : Option ℚ := none
  src : Option String := none
deriving Repr, DecidableEq

/-- One iteration of the line loop of `parse_lino_file` (lines 41–58): strip
the line, classify it by its leading keyword, and update the accumulated
fields.  A failing `float()` on a `value` line is caught and leaves the
previous value (`except ValueError: pass`). -/
def parseLinoLine (acc : ParsedDay) (rawLine : List Char) : ParsedDay :=
  let line := pyStripWs rawLine
  if startsWithL "from ".data line then
    { acc with from_curr := some (String.mk (toUpperL (pyStripWs (line.drop 5)))) }
  else if startsWithL "to ".data line then
    { acc with to_curr := some (String.mk (toUpperL (pyStripWs (line.drop 3)))) }
  else if startsWithL "date ".data line then
    { acc with date := some (String.mk (pyStripWs (line.drop 5))) }
  else if startsWithL "value ".data line then
    match parseDecimal (line.drop 6) with
    | some v => { acc with value := some v }
    | none => acc
  else if startsWithL "source ".data line then
    { acc with src := some (String.mk (pyStripChars quoteChars (pyStripWs (line.drop 7)))) }
  else acc

/-- `parse_lino_file` on a file's text content: `content.strip().split('\n')`
then the line loop. -/
def parse_lino_file (content : String) : ParsedDay :=
  (splitOnChar '\n' (pyStripWs content.data)).foldl parseLinoLine {}

/-- The Python truthiness guard of `consolidate_currency_pair` (line 80):
`if fc and tc and date and value is not None` — the three strings must be
present and non-empty, the value merely present (`0.0` passes). -/
def validDay (p : ParsedDay) : Bool :=
  p.from_curr.getD "" ≠ "" && p.to_curr.getD "" ≠ "" && p.date.getD "" ≠ ""
    && p.value.isSome

/-- The `(date, value)` entry a file contributes to the consolidation when
it passes the guard. -/
def dayEntry (content : String) : Option (String × ℚ) :=
  let p := parse_lino_file content
  if validDay p then some (p.date.getD "", (p.value.getD 0)) else none

/-- All entries contributed by a list of file contents, in encounter order. -/
def collectEntries (contents : List String) : List (String × ℚ) :=
  contents.filterMap dayEntry

/-- The running state of the file loop of `consolidate_currency_pair`
(lines 72–87): the last assigned `from_curr`/`to_curr`/`source` and the
accumulated `rates` list. -/
structure ConsAcc where
  from_curr : Option String := none
  to_curr : Option String := none
  src : Option String := none
  rates : List (String × ℚ) := []

/-- One iteration of the file loop (lines 77–87): when the parsed file
passes the guard, `from_curr`/`to_curr` are overwritten, `source` is
overwritten when truthy, and the `(date, value)` entry is appended. -/
def consStep (acc : ConsAcc) (content : String) : ConsAcc :=
  let p := parse_lino_file content
  if validDay p then
    { from_curr := p.from_curr,
      to_curr := p.to_curr,
      src := if p.src.getD "" ≠ "" then p.src else acc.src,
      rates := acc.rates ++ [(p.date.getD "", p.value.getD 0)] }
  else acc

/-- The consolidated result of `consolidate_currency_pair` (lines 95–100). -/
structure ConsolidatedData where
  from_curr : String
  to_curr : String
  src : String
  rates : List (String × ℚ)
deriving Repr, DecidableEq

/-- `consolidate_currency_pair` over the contents of the directory's files:
`none` when no file yields a valid record (`if not rates: return None`; the
`if not lino_files` early return produces the same `None`), otherwise the
date-sorted entries with the last-assigned pair fields and
`source or 'unknown'`.  When `rates` is non-empty, `from_curr`/`to_curr`
were necessarily assigned (only the guarded branch appends), so the `getD`
defaults are never reached. -/
def consolidate_currency_pair (contents : List String) : Option ConsolidatedData :=
  let acc := contents.foldl consStep {}
  if acc.rates = [] then none
  else
    some { from_curr := acc.from_curr.getD "",
           to_curr := acc.to_curr.getD "",
           src := if acc.src.getD "" ≠ "" then acc.src.getD "" else "unknown",
           rates := sortRates acc.rates }

/-- `write_consolidated_lino` of `consolidate_rates.py` (lines 103–116): the
content written for an already-consolidated record (its `rates` are already
sorted by `consolidate_currency_pair`). -/
def write_consolidated_lino_content (showRate : ℚ → String) (data : ConsolidatedData) :
    String :=
  joinLines (["rates:",
              "  from " ++ data.from_curr,
              "  to " ++ data.to_curr,
              "  source '" ++ data.src ++ "'",
              "  data:"]
    ++ data.rates.map (fun dr => "    " ++ dr.1 ++ " " ++ showRate dr.2)) ++ "\n"

/-- The per-directory body of `main` in `consolidate_rates.py` (lines
138–159): `from_curr`/`to_curr` are taken from the *directory names*
(uppercased), and when consolidation succeeds the output is written to
`{from_curr.lower()}-{to_curr.lower()}.lino` at the top level. -/
def consolidateDirOutput (dirFrom dirTo : String) (contents : List String) :
    Option (String × ConsolidatedData) :=
  match consolidate_currency_pair contents with
  | none => none
  | some data =>
    some (String.mk (toLowerL (toUpperL dirFrom.data)) ++ "-"
      ++ String.mk (toLowerL (toUpperL dirTo.data)) ++ ".lino", data)

/-! ### Concrete inputs used by witnesses and counterexamples -/

/-- The spec's worked Provider B example: `date=25.01.2021`, raw value
`"5,6000"`, nominal `100`. -/
def cbrExampleRecord : CbrRecord :=
  { dateAttr := some "25.01.2021", valueText := some "5,6000", nominalText := some "100" }

/-- A well-formed CBR record whose value parses to zero (`"0,0"`). -/
def cbrZeroRecord : CbrRecord :=
  { dateAttr := some "25.01.2021", valueText := some "0,0", nominalText := some "1" }

/-- A Frankfurter fetch answering only the `USD → EUR` request, with a
response carrying the (provider-supplied) rate `-1` on one date. -/
def badFrankFetch : String × String → Option FrankRates := fun pair =>
  if pair = ("USD", "EUR") then some [("2021-01-04", [("EUR", -1)])] else none

/-- A Frankfurter fetch answering only the `USD → EUR` request with one
positive rate. -/
def goodFrankFetch : String × String → Option FrankRates := fun pair =>
  if pair = ("USD", "EUR") then some [("2021-01-04", [("EUR", 2)])] else none

/-- A legacy per-day file. -/
def legacyFileA : String :=
  "from usd\nto eur\nvalue 0.82\ndate 2021-01-25\nsource 'frankfurter.dev (ECB)'"

/-- A second legacy per-day file for the same pair and the same date. -/
def legacyFileB : String :=
  "from usd\nto eur\nvalue 0.9\ndate 2021-01-25\nsource 'frankfurter.dev (ECB)'"

/-- A legacy per-day file declaring the pair `GBP/JPY` inside its fields. -/
def gbpJpyFile : String :=
  "from gbp\nto jpy\nvalue 2\ndate 2021-01-25\nsource 'cbr.ru (Central Bank of Russia)'"

/-- A file with no recognized fields at all. -/
def junkFile : String := "nothing to see here"


/-! ### Helper lemmas -/

/-- A line list joined with newlines and then newline-terminated is the
concatenation of the newline-terminated lines. -/
def terminatedLines : List String → String
  | [] => ""
  | l :: ls => l ++ "\n" ++ terminatedLines ls

theorem joinLines_newline (ls : List String) (l : String) :
    joinLines (l :: ls) ++ "\n" = terminatedLines (l :: ls) := by
  induction ls generalizing l with
  | nil =>
    apply String.ext
    simp [joinLines, terminatedLines]
  | cons l' ls ih =>
    apply String.ext
    have h := congrArg String.data (ih l')
    simp [joinLines, terminatedLines] at h ⊢
    simp [h]

theorem terminatedLines_append (xs ys : List String) :
    terminatedLines (xs ++ ys) = terminatedLines xs ++ terminatedLines ys := by
  induction xs with
  | nil => apply String.ext; simp [terminatedLines]
  | cons x xs ih =>
    apply String.ext
    have h := congrArg String.data ih
    simp [terminatedLines] at h ⊢
    simp [h]

theorem dropWhile_append_of_all (p : Char → Bool) (l1 l2 : List Char)
    (h : ∀ c ∈ l1, p c) : (l1 ++ l2).dropWhile p = l2.dropWhile p := by
  induction l1 with
  | nil => rfl
  | cons a as ih =>
    simp only [List.cons_append, List.dropWhile, h a (by simp)]
    exact ih fun c hc => h c (by simp [hc])

theorem dropWhile_eq_self_of_all (p : Char → Bool) (l : List Char)
    (h : ∀ c ∈ l, ¬ p c) : l.dropWhile p = l := by
  cases l with
  | nil => rfl
  | cons a as => simp [List.dropWhile, h a (by simp)]

theorem pyStripChars_eq_self (cs l : List Char) (h : ∀ c ∈ l, ¬ charIn cs c) :
    pyStripChars cs l = l := by
  unfold pyStripChars
  rw [dropWhile_eq_self_of_all _ _ h,
    dropWhile_eq_self_of_all _ _ (fun c hc => h c (List.mem_reverse.mp hc)),
    List.reverse_reverse]

theorem splitOnChar_of_not_mem (sep : Char) (l : List Char) (h : sep ∉ l) :
    splitOnChar sep l = [l] := by
  induction l with
  | nil => rfl
  | cons a as ih =>
    have ha : ¬ a = sep := fun e => h (by simp [e])
    simp only [splitOnChar, if_neg ha, ih (fun hm => h (by simp [hm]))]

theorem startsWithL_append_self (p s : List Char) : startsWithL p (p ++ s) = true := by
  induction p with
  | nil => rfl
  | cons a ps ih => simp [startsWithL, ih]

theorem consStep_rates (contents : List String) (acc : ConsAcc) :
    (contents.foldl consStep acc).rates = acc.rates ++ collectEntries contents := by
  induction contents generalizing acc with
  | nil => simp [collectEntries]
  | cons c cs ih =>
    simp only [List.foldl_cons, collectEntries, List.filterMap_cons]
    by_cases h : validDay (parse_lino_file c)
    · rw [ih]
      simp [consStep, dayEntry, h, collectEntries]
    · rw [ih]
      simp [consStep, dayEntry, h, collectEntries]

theorem processCbrRecord_ok_some (rec : CbrRecord) (d : String) (a b : ℚ)
    (h : processCbrRecord rec = .ok (some (d, a, b))) :
    ∃ da v, rec.dateAttr = some da ∧ rec.valueText = some v ∧
      ∃ r, parseDecimal (replaceCommaDot v.data) = some r ∧ parseCbrDate da = some d ∧
        r ≠ 0 ∧ nominalOf rec.nominalText ≠ 0 ∧
        a = (nominalOf rec.nominalText : ℚ) / r ∧
        b = r / (nominalOf rec.nominalText : ℚ) := by
  rcases rec with ⟨da, v, nt⟩
  cases da with
  | none => simp [processCbrRecord] at h
  | some da =>
    cases v with
    | none => simp [processCbrRecord] at h
    | some v =>
      simp only [processCbrRecord] at h
      split at h
      · cases h
      · split at h
        · cases h
        · split at h
          · cases h
          · split at h
            · cases h
            · split at h
              · cases h
              · rename_i x1 dateStr hdate x2 rate hrate hr hn
                injection h with h1
                injection h1 with h2
                injection h2 with hdeq hab
                injection hab with haeq hbeq
                exact ⟨da, v, rfl, rfl, rate, hrate, hdeq ▸ hdate, hr, hn,
                  haeq.symm, hbeq.symm⟩

theorem cbrRecordsTriples_mem (currency : String) (recs : List CbrRecord)
    (ts : List Triple) (t : Triple)
    (h : cbrRecordsTriples currency recs = .ok ts) (ht : t ∈ ts) :
    ∃ rec ∈ recs, ∃ ts', cbrRecordTriples currency rec = .ok ts' ∧ t ∈ ts' := by
  induction recs generalizing ts with
  | nil =>
    injection h with h'
    subst h'
    cases ht
  | cons rec recs ih =>
    simp only [cbrRecordsTriples] at h
    split at h
    · cases h
    · rename_i ts1 h1
      split at h
      · cases h
      · rename_i ts2 h2
        injection h with h'
        subst h'
        rcases List.mem_append.mp ht with hmem | hmem
        · exact ⟨rec, by simp, ts1, h1, hmem⟩
        · obtain ⟨r', hr', ts', hts', hmem'⟩ := ih ts2 h2 hmem
          exact ⟨r', by simp [hr'], ts', hts', hmem'⟩

theorem downloadCbrTriplesAux_mem (fetch : String → Option (List CbrRecord))
    (l : List (String × String)) (ts : List Triple) (t : Triple)
    (h : downloadCbrTriplesAux fetch l = .ok ts) (ht : t ∈ ts) :
    ∃ cc ∈ l, ∃ recs, fetch cc.1 = some recs ∧
      ∃ ts', cbrRecordsTriples cc.2 recs = .ok ts' ∧ t ∈ ts' := by
  induction l generalizing ts with
  | nil =>
    injection h with h'
    subst h'
    cases ht
  | cons cc rest ih =>
    simp only [downloadCbrTriplesAux] at h
    split at h
    · cases h
    · rename_i ts1 h1
      split at h
      · cases h
      · rename_i ts2 h2
        injection h with h'
        subst h'
        rcases List.mem_append.mp ht with hmem | hmem
        · cases hf : fetch cc.1 with
          | none =>
            rw [hf] at h1
            injection h1 with h1'
            subst h1'
            cases hmem
          | some recs =>
            rw [hf] at h1
            exact ⟨cc, by simp, recs, hf, ts1, h1, hmem⟩
        · obtain ⟨cc', hcc', recs, hrecs, ts', hts', hmem'⟩ := ih ts2 h2 hmem
          exact ⟨cc', by simp [hcc'], recs, hrecs, ts', hts', hmem'⟩

theorem cbrRecordTriples_mem (currency : String) (rec : CbrRecord)
    (ts : List Triple) (t : Triple)
    (h : cbrRecordTriples currency rec = .ok ts) (ht : t ∈ ts) :
    ∃ d a b, processCbrRecord rec = .ok (some (d, a, b)) ∧
      (t = ("RUB", currency, d, a) ∨ t = (currency, "RUB", d, b)) := by
  unfold cbrRecordTriples at h
  split at h
  · cases h
  · injection h with h'
    subst h'
    cases ht
  · rename_i d a b hproc
    injection h with h'
    subst h'
    rcases List.mem_cons.mp ht with he | ht'
    · exact ⟨d, a, b, hproc, Or.inl he⟩
    · rcases List.mem_cons.mp ht' with he | hn
      · exact ⟨d, a, b, hproc, Or.inr he⟩
      · cases hn

theorem extractFrankfurter_mem (toCurr : String) (rates : FrankRates)
    (d : String) (r : ℚ) (h : (d, r) ∈ extractFrankfurter toCurr rates) :
    ∃ day ∈ rates, ∃ cr ∈ day.2, cr.1 = toCurr ∧ cr.2 = r := by
  obtain ⟨day, hday, hsome⟩ := List.mem_filterMap.mp h
  split at hsome
  · rename_i cr hfind
    injection hsome with h'
    have h1 := congrArg Prod.fst h'
    have h2 := congrArg Prod.snd h'
    simp at h1 h2
    exact ⟨day, hday, cr, List.mem_of_find?_eq_some hfind,
      by simpa using List.find?_some hfind, h2⟩
  · cases hsome

/-! ### Claim theorems -/

/-- C1: for every CBR record with a parseable date, a parseable raw rate
(obtained after replacing the decimal comma with a dot), and defaulted
nominal `n` (the claim's divisions presuppose the parsed rate and nominal
non-zero), the adapter emits exactly the two triples
`(RUB, foreign, date, n / raw)` and `(foreign, RUB, date, raw / n)`, with
the `DD.MM.YYYY` date converted to `YYYY-MM-DD` by `parseCbrDate`. -/
theorem cbr_record_emits_two_triples (currency : String) (rec : CbrRecord)
    (da v y : String) (r : ℚ)
    (hda : rec.dateAttr = some da) (hdane : da ≠ "")
    (hv : rec.valueText = some v) (hvne : v ≠ "")
    (hdate : parseCbrDate da = some y)
    (hrate : parseDecimal (replaceCommaDot v.data) = some r) (hr : r ≠ 0)
    (hn : nominalOf rec.nominalText ≠ 0) :
    cbrRecordTriples currency rec =
      .ok [("RUB", currency, y, (nominalOf rec.nominalText : ℚ) / r),
           (currency, "RUB", y, r / (nominalOf rec.nominalText : ℚ))] := by
  unfold cbrRecordTriples processCbrRecord
  rw [hda, hv]
  simp [hdane, hvne, hdate, hrate, hr, hn]

/-- Witness for C1 at the spec's worked example: nominal 100, raw value
`"5,6000"`, giving `100 / 5.6 = 125/7` and `5.6 / 100 = 7/125`. -/
theorem cbr_record_emits_two_triples_witness :
    cbrRecordTriples "JPY" cbrExampleRecord =
      .ok [("RUB", "JPY", "2021-01-25", 125/7), ("JPY", "RUB", "2021-01-25", 7/125)] := by
  have h := cbr_record_emits_two_triples "JPY" cbrExampleRecord
    "25.01.2021" "5,6000" "2021-01-25" (28/5)
    rfl (by decide) rfl (by decide) (by decide)
    (by norm_num +decide [parseDecimal, replaceCommaDot, pyStripWs, pyStripChars,
      splitOnChar, allDigits, charIn, pySpaceChars,
      show natOfDigits ['5'] = 5 from by decide,
      show natOfDigits ['6', '0', '0', '0'] = 6000 from by decide])
    (by norm_num) (by decide)
  rw [h]
  norm_num [show nominalOf cbrExampleRecord.nominalText = 100 from by decide]

/-- C4: the two rates the CBR adapter emits for one accepted record
multiply to exactly 1. -/
theorem cbr_rates_self_inverse (rec : CbrRecord) (d : String) (a b : ℚ)
    (h : processCbrRecord rec = .ok (some (d, a, b))) : a * b = 1 := by
  obtain ⟨da, v, hda, hv, r, hparse, hdate, hrne, hnne, ha, hb⟩ :=
    processCbrRecord_ok_some rec d a b h
  subst ha hb
  have hn' : (nominalOf rec.nominalText : ℚ) ≠ 0 := Int.cast_ne_zero.mpr hnne
  field_simp

/-- Witness for C4 at the spec's worked example. -/
theorem cbr_rates_self_inverse_witness :
    processCbrRecord cbrExampleRecord = .ok (some ("2021-01-25", 125/7, 7/125)) ∧
    (125/7 : ℚ) * (7/125) = 1 := by
  have hp : processCbrRecord cbrExampleRecord = .ok (some ("2021-01-25", 125/7, 7/125)) := by
    unfold processCbrRecord
    norm_num +decide [cbrExampleRecord,
      show parseCbrDate "25.01.2021" = some "2021-01-25" from by decide,
      show nominalOf (some "100") = 100 from by decide,
      show parseDecimal (replaceCommaDot "5,6000".data) = some (28/5) from by
        norm_num +decide [parseDecimal, replaceCommaDot, pyStripWs, pyStripChars,
          splitOnChar, allDigits, charIn, pySpaceChars,
          show natOfDigits ['5'] = 5 from by decide,
          show natOfDigits ['6', '0', '0', '0'] = 6000 from by decide]]
  exact ⟨hp, cbr_rates_self_inverse cbrExampleRecord _ _ _ hp⟩

/-- C10: a well-formed CBR record whose `Value` parses to `0` (text
`"0,0"`) drives `nominal / rate` into a division by zero: the adapter
raises (modelled as `.error ()`) instead of skipping the record, and the
error aborts the whole record batch. -/
theorem cbr_zero_rate_raises :
    processCbrRecord cbrZeroRecord = .error () ∧
    cbrRecordsTriples "JPY" [cbrZeroRecord] = .error () := by
  have h : processCbrRecord cbrZeroRecord = .error () := by
    unfold processCbrRecord
    norm_num +decide [cbrZeroRecord,
      show parseCbrDate "25.01.2021" = some "2021-01-25" from by decide,
      show parseDecimal (replaceCommaDot "0,0".data) = some 0 from by
        norm_num +decide [parseDecimal, replaceCommaDot, pyStripWs, pyStripChars,
          splitOnChar, allDigits, charIn, pySpaceChars,
          show natOfDigits ['0'] = 0 from by decide]]
  exact ⟨h, by simp [cbrRecordsTriples, cbrRecordTriples, h]⟩

/-- C3 fails as stated: the adapters forward provider-supplied rates
unchecked, so a Provider A response carrying a non-positive rate is
emitted as-is.  Here a fetched rate of `-1` for `USD → EUR` yields an
emitted triple whose rate is not strictly positive. -/
theorem adapter_emits_nonpositive_rate :
    ("USD", "EUR", "2021-01-04", (-1 : ℚ)) ∈ downloadFrankfurterTriples badFrankFetch
    ∧ ¬ (0 < (-1 : ℚ)) := by
  constructor
  · apply List.mem_flatMap.mpr
    refine ⟨("USD", "EUR"), by decide, ?_⟩
    simp [badFrankFetch, extractFrankfurter]
  · norm_num

/-- C3 amended: provided every rate in each fetched Provider A response is
strictly positive, and every Provider B record has a strictly positive
defaulted nominal and a strictly positive parsed raw rate, every triple
emitted by either adapter has distinct currencies and a strictly positive
rate. -/
theorem adapter_triples_valid
    (fetchA : String × String → Option FrankRates)
    (fetchB : String → Option (List CbrRecord))
    (hA : ∀ pair rates, fetchA pair = some rates →
      ∀ day ∈ rates, ∀ cr ∈ day.2, 0 < cr.2)
    (hB : ∀ code recs, fetchB code = some recs → ∀ rec ∈ recs,
      0 < nominalOf rec.nominalText ∧
      ∀ v r, rec.valueText = some v →
        parseDecimal (replaceCommaDot v.data) = some r → 0 < r)
    (ts : List Triple) (hts : downloadCbrTriples fetchB = .ok ts) :
    ∀ t ∈ downloadFrankfurterTriples fetchA ++ ts, t.1 ≠ t.2.1 ∧ 0 < t.2.2.2 := by
  intro t ht
  rcases List.mem_append.mp ht with hf | hc
  · obtain ⟨pair, hpair, hmem⟩ := List.mem_flatMap.mp hf
    have hne : pair.1 ≠ pair.2 := by
      have hall : ∀ p ∈ FRANKFURTER_PAIRS, p.1 ≠ p.2 := by decide
      exact hall pair hpair
    cases hfa : fetchA pair with
    | none => rw [hfa] at hmem; cases hmem
    | some rates =>
      rw [hfa] at hmem
      obtain ⟨dr, hdr, heq⟩ := List.mem_map.mp hmem
      obtain ⟨day, hday, cr, hcr, hcr1, hcr2⟩ :=
        extractFrankfurter_mem pair.2 rates dr.1 dr.2 (by simpa using hdr)
      subst heq
      refine ⟨hne, ?_⟩
      show 0 < dr.2
      rw [← hcr2]
      exact hA pair rates hfa day hday cr hcr
  · obtain ⟨cc, hcc, recs, hrecs, ts', hts', hm1⟩ :=
      downloadCbrTriplesAux_mem fetchB CBR_CURRENCIES ts t hts hc
    obtain ⟨rec, hrec, ts'', hts'', hm2⟩ :=
      cbrRecordsTriples_mem cc.2 recs ts' t hts' hm1
    obtain ⟨d, a, b, hproc, hcase⟩ := cbrRecordTriples_mem cc.2 rec ts'' t hts'' hm2
    obtain ⟨da, v, hda, hv, r, hparse, hdate, hrne, hnne, hb1, hb2⟩ :=
      processCbrRecord_ok_some rec d a b hproc
    have hposn : 0 < nominalOf rec.nominalText := (hB cc.1 recs hrecs rec hrec).1
    have hposr : 0 < r := (hB cc.1 recs hrecs rec hrec).2 v r hv hparse
    have hposn' : 0 < (nominalOf rec.nominalText : ℚ) := by exact_mod_cast hposn
    have hcur : cc.2 ≠ "RUB" := by
      have hall : ∀ p ∈ CBR_CURRENCIES, p.2 ≠ "RUB" := by decide
      exact hall cc hcc
    rcases hcase with he | he <;> subst he
    · exact ⟨fun hx => hcur hx.symm, by simpa [hb1] using div_pos hposn' hposr⟩
    · exact ⟨hcur, by simpa [hb2] using div_pos hposr hposn'⟩

/-- Witness for the amended C3: one positive Provider A response and an
unreachable Provider B; the emitted `USD → EUR` triple satisfies both
invariants. -/
theorem adapter_triples_valid_witness : ("USD" : String) ≠ "EUR" ∧ (0 : ℚ) < 2 := by
  have h := adapter_triples_valid goodFrankFetch (fun _ => none)
    (by
      intro pair rates hfa day hday cr hcr
      by_cases hp : pair = ("USD", "EUR")
      · subst hp
        simp only [goodFrankFetch, if_pos rfl] at hfa
        injection hfa with hfa'
        subst hfa'
        simp at hday
        subst hday
        simp at hcr
        subst hcr
        norm_num
      · simp [goodFrankFetch, hp] at hfa)
    (by intro code recs hfa; cases hfa)
    [] rfl
    ("USD", "EUR", "2021-01-04", 2)
    (by
      apply List.mem_append.mpr
      left
      apply List.mem_flatMap.mpr
      exact ⟨("USD", "EUR"), by decide, by simp [goodFrankFetch, extractFrankfurter]⟩)
  exact h

/-- C2 fails on the code: `consolidate_currency_pair` performs no per-date
deduplication and no merge with pre-existing data — two input files with
the same date both survive into the output, so the series does not contain
at most one rate per date and no replacement happens. -/
theorem consolidate_keeps_duplicate_dates :
    (consolidate_currency_pair [legacyFileA, legacyFileB]).map ConsolidatedData.rates
      = some [("2021-01-25", 41/50), ("2021-01-25", 9/10)]
    ∧ ¬ List.Pairwise (fun a b => a.1 ≠ b.1)
        [(("2021-01-25" : String), (41/50 : ℚ)), ("2021-01-25", 9/10)] := by
  constructor
  · norm_num +decide [consolidate_currency_pair, consStep, validDay, parse_lino_file,
      legacyFileA, legacyFileB, parseLinoLine, pyStripWs, pyStripChars, splitOnChar,
      startsWithL, parseDecimal, allDigits, charIn, pySpaceChars, quoteChars, toUpperL,
      sortRates, dateLe, List.insertionSort, List.orderedInsert,
      show natOfDigits ['8', '2'] = 82 from by decide,
      show natOfDigits ['9'] = 9 from by decide,
      show natOfDigits ['0'] = 0 from by decide]
  · simp

/-- C2 amended: consolidation keeps every valid parsed entry, duplicate
dates included — the output `rates` are a permutation of all entries in
encounter order, stably sorted ascending by date; a later entry with the
same date is appended alongside the earlier one rather than replacing it,
and no pre-existing output data is merged. -/
theorem consolidate_rates_perm_sorted (contents : List String)
    (data : ConsolidatedData) (h : consolidate_currency_pair contents = some data) :
    data.rates.Perm (collectEntries contents) ∧ List.Sorted dateLe data.rates := by
  simp only [consolidate_currency_pair] at h
  split at h
  · cases h
  · injection h with h'
    have hr : data.rates = sortRates (List.foldl consStep {} contents).rates := by
      rw [← h']
    rw [hr, consStep_rates contents {}]
    constructor
    · exact (List.perm_insertionSort dateLe _).trans (by simp)
    · exact List.sorted_insertionSort dateLe _

/-- Witness for the amended C2 at a one-file directory. -/
theorem consolidate_rates_perm_sorted_witness :
    List.Perm [(("2021-01-25" : String), (41/50 : ℚ))] (collectEntries [legacyFileA])
    ∧ List.Sorted dateLe [(("2021-01-25" : String), (41/50 : ℚ))] := by
  have hc : consolidate_currency_pair [legacyFileA] = some
      { from_curr := "USD", to_curr := "EUR", src := "frankfurter.dev (ECB)",
        rates := [("2021-01-25", 41/50)] } := by
    norm_num +decide [consolidate_currency_pair, consStep, validDay, parse_lino_file,
      legacyFileA, parseLinoLine, pyStripWs, pyStripChars, splitOnChar,
      startsWithL, parseDecimal, allDigits, charIn, pySpaceChars, quoteChars, toUpperL,
      sortRates, dateLe, List.insertionSort, List.orderedInsert,
      show natOfDigits ['8', '2'] = 82 from by decide,
      show natOfDigits ['0'] = 0 from by decide]
  exact consolidate_rates_perm_sorted [legacyFileA] _ hc

/-- C5: for every series, the serializer produces the file name
`{from}-{to}.lino` in lowercase and exactly the content
`rates:` / `from` / `to` / single-quoted `source` / `data:` followed by one
`<date> <rate>` line per (date-sorted) entry, each line newline-terminated,
with 2-space-per-level indentation. -/
theorem write_consolidated_lino_format (sr : ℚ → String) (f t : String)
    (rates : List (String × ℚ)) (src : String) :
    (write_consolidated_lino sr f t rates src).1
      = String.mk (toLowerL f.data) ++ "-" ++ String.mk (toLowerL t.data) ++ ".lino"
    ∧ (write_consolidated_lino sr f t rates src).2
      = "rates:" ++ "\n"
        ++ "  from " ++ String.mk (toUpperL f.data) ++ "\n"
        ++ "  to " ++ String.mk (toUpperL t.data) ++ "\n"
        ++ "  source '" ++ src ++ "'" ++ "\n"
        ++ "  data:" ++ "\n"
        ++ terminatedLines
            ((sortRates rates).map fun dr => "    " ++ dr.1 ++ " " ++ sr dr.2) := by
  refine ⟨rfl, ?_⟩
  show joinLines ("rates:" :: (["  from " ++ String.mk (toUpperL f.data),
    "  to " ++ String.mk (toUpperL t.data), "  source '" ++ src ++ "'", "  data:"]
    ++ (sortRates rates).map fun dr => "    " ++ dr.1 ++ " " ++ sr dr.2)) ++ "\n" = _
  rw [joinLines_newline]
  show terminatedLines (["rates:", "  from " ++ String.mk (toUpperL f.data),
    "  to " ++ String.mk (toUpperL t.data), "  source '" ++ src ++ "'", "  data:"]
    ++ (sortRates rates).map fun dr => "    " ++ dr.1 ++ " " ++ sr dr.2) = _
  rw [terminatedLines_append]
  apply String.ext
  simp [terminatedLines]

/-- C6: the data lines the serializer writes are sorted ascending
(lexicographically) by date string, whatever the insertion order of the
entries, and are exactly the given entries (a permutation — nothing is
added or dropped). -/
theorem serialized_rates_sorted_by_date (rates : List (String × ℚ)) :
    List.Sorted (fun a b => a ≤ b) ((sortRates rates).map Prod.fst)
    ∧ (sortRates rates).Perm rates := by
  constructor
  · exact List.Pairwise.map Prod.fst (fun a b hab => hab)
      (List.sorted_insertionSort dateLe rates)
  · exact List.perm_insertionSort dateLe rates

set_option maxRecDepth 4000 in
/-- C7 fails as stated: the consolidated file's *content* carries the
declared `from`/`to` fields, but the *filename key* comes from the
directory names.  A `usd/eur` directory holding a file that declares
`GBP`/`JPY` is written to `usd-eur.lino` (not `gbp-jpy.lino`), with
`GBP`/`JPY` inside. -/
theorem consolidate_key_uses_directory_names :
    consolidateDirOutput "usd" "eur" [gbpJpyFile]
      = some ("usd-eur.lino",
          { from_curr := "GBP", to_curr := "JPY",
            src := "cbr.ru (Central Bank of Russia)",
            rates := [("2021-01-25", 2)] })
    ∧ ("usd-eur.lino" : String) ≠ "gbp-jpy.lino" := by
  constructor
  · norm_num +decide [consolidateDirOutput, consolidate_currency_pair, consStep,
      validDay, parse_lino_file, gbpJpyFile, parseLinoLine, pyStripWs, pyStripChars,
      splitOnChar, startsWithL, parseDecimal, allDigits, charIn, pySpaceChars,
      quoteChars, toUpperL, toLowerL, sortRates, dateLe, List.insertionSort,
      List.orderedInsert, show natOfDigits ['2'] = 2 from by decide]
  · decide

/-- C7 amended: the `from`/`to` written inside the consolidated file are
the declared fields delivered by `consolidate_currency_pair` (independent
of the directory names), while the output filename is keyed by the
lowercased directory names, not by the declared fields. -/
theorem consolidate_dir_key_and_content (dirFrom dirTo : String)
    (contents : List String) (data : ConsolidatedData)
    (h : consolidate_currency_pair contents = some data) :
    consolidateDirOutput dirFrom dirTo contents
      = some (String.mk (toLowerL (toUpperL dirFrom.data)) ++ "-"
          ++ String.mk (toLowerL (toUpperL dirTo.data)) ++ ".lino", data) := by
  unfold consolidateDirOutput
  rw [h]

/-- Witness for the amended C7: the mismatched directory names drive the
filename, the declared fields drive the content. -/
theorem consolidate_dir_key_and_content_witness :
    consolidateDirOutput "usd" "eur" [legacyFileA]
      = some (String.mk (toLowerL (toUpperL "usd".data)) ++ "-"
          ++ String.mk (toLowerL (toUpperL "eur".data)) ++ ".lino",
          { from_curr := "USD", to_curr := "EUR", src := "frankfurter.dev (ECB)",
            rates := [("2021-01-25", 41/50)] }) := by
  apply consolidate_dir_key_and_content
  norm_num +decide [consolidate_currency_pair, consStep, validDay, parse_lino_file,
    legacyFileA, parseLinoLine, pyStripWs, pyStripChars, splitOnChar,
    startsWithL, parseDecimal, allDigits, charIn, pySpaceChars, quoteChars, toUpperL,
    sortRates, dateLe, List.insertionSort, List.orderedInsert,
    show natOfDigits ['8', '2'] = 82 from by decide,
    show natOfDigits ['0'] = 0 from by decide]

/-- C8: a pair with zero entries after the merge produces no output file:
a directory none of whose files passes the validity guard consolidates to
`None` (so `main` writes nothing), and every file the download script
writes comes from a pair whose rate list is non-empty. -/
theorem empty_merge_writes_no_file (contents : List String)
    (h : ∀ c ∈ contents, dayEntry c = none) :
    consolidate_currency_pair contents = none
    ∧ ∀ (sr : ℚ → String) (src : String)
        (allRates : List ((String × String) × List (String × ℚ)))
        (w : String × String), w ∈ cbrWrites sr src allRates →
        ∃ pr, pr ∈ allRates ∧ pr.2 ≠ []
          ∧ w = write_consolidated_lino sr pr.1.1 pr.1.2 pr.2 src := by
  constructor
  · have hrates : (List.foldl consStep {} contents).rates = [] := by
      rw [consStep_rates contents {}]
      have : collectEntries contents = [] := by
        apply List.filterMap_eq_nil_iff.mpr
        intro c hc
        simp [dayEntry] at h ⊢
        exact h c hc
      simp [this]
    simp only [consolidate_currency_pair, hrates]
    simp
  · intro sr src allRates w hw
    obtain ⟨pr, hpr, hsome⟩ := List.mem_filterMap.mp hw
    by_cases hemp : pr.2 = []
    · simp [hemp] at hsome
    · rw [if_neg hemp] at hsome
      injection hsome with h'
      exact ⟨pr, hpr, hemp, h'.symm⟩

/-- Witness for C8: a junk-only directory writes nothing. -/
theorem empty_merge_writes_no_file_witness :
    consolidate_currency_pair [junkFile] = none :=
  (empty_merge_writes_no_file [junkFile]
    (by intro c hc; simp at hc; subst hc; decide)).1

/-- C9 fails as stated: `src.strip("'\"")` strips *all* leading and
trailing quote characters, not one layer — a stored `source ''x''` parses
back to `x`, not to `'x'`. -/
theorem parse_source_strips_all_quotes :
    (parse_lino_file "source ''x''").src = some "x"
    ∧ (some ("x" : String) ≠ some ("'x'" : String)) := by
  constructor
  · decide
  · decide

theorem dropWhile_eq_self_of_head (p : Char → Bool) (l : List Char)
    (h : ∀ c, l.head? = some c → p c = false) : l.dropWhile p = l := by
  cases l with
  | nil => rfl
  | cons a as => simp [List.dropWhile_cons, h a rfl]

theorem pyStripWs_no_ws (l : List Char) (h : ∀ c ∈ l, charIn pySpaceChars c = false) :
    pyStripWs l = l :=
  pyStripChars_eq_self pySpaceChars l (fun c hc => by simp [h c hc])

/-- C9 amended: the stored `source` value is unquoted by stripping *all*
leading and trailing single- or double-quote characters (in any mix), not
a single layer: for a whitespace-free line `source <pre><core><post>` with
`pre`/`post` runs of quote characters and `core` not starting or ending
with a quote, the parsed source is exactly `core`. -/
theorem parse_source_strips_all_quotes_amended (pre core post : List Char)
    (hpre : ∀ c ∈ pre, charIn quoteChars c = true)
    (hpost : ∀ c ∈ post, charIn quoteChars c = true)
    (hcore : core ≠ [])
    (hws : ∀ c ∈ pre ++ core ++ post, charIn pySpaceChars c = false)
    (hhead : ∀ c, core.head? = some c → charIn quoteChars c = false)
    (hlast : ∀ c, core.getLast? = some c → charIn quoteChars c = false) :
    (parse_lino_file (String.mk ("source ".data ++ (pre ++ core ++ post)))).src
      = some (String.mk core) := by
  set mid := pre ++ core ++ post with hmid
  have hmidne : mid ≠ [] := by
    intro h
    rcases List.append_eq_nil.mp h with ⟨h1, _⟩
    exact hcore (List.append_eq_nil.mp h1).2
  -- the whole line is whitespace-free at both ends, so `content.strip()`
  -- and `line.strip()` leave it unchanged
  have hstrip : pyStripWs ("source ".data ++ mid) = "source ".data ++ mid := by
    unfold pyStripWs pyStripChars
    have hfront : List.dropWhile (charIn pySpaceChars) ("source ".data ++ mid)
        = "source ".data ++ mid := by
      apply dropWhile_eq_self_of_head
      intro c hc
      rw [show ("source ".data ++ mid) = 's' :: ("ource ".data ++ mid) from rfl] at hc
      injection hc with hc'
      subst hc'
      decide
    rw [hfront]
    have hback : List.dropWhile (charIn pySpaceChars) ("source ".data ++ mid).reverse
        = ("source ".data ++ mid).reverse := by
      apply dropWhile_eq_self_of_head
      intro c hc
      rw [List.head?_reverse, List.getLast?_append_of_ne_nil _ hmidne] at hc
      exact hws c (List.mem_of_mem_getLast? hc)
    rw [hback, List.reverse_reverse]
  have hnl : ('\n' : Char) ∉ "source ".data ++ mid := by
    intro hmem
    rcases List.mem_append.mp hmem with hmem | hmem
    · revert hmem
      decide
    · have := hws _ hmem
      revert this
      decide
  have hsplit : splitOnChar '\n' ("source ".data ++ mid) = ["source ".data ++ mid] :=
    splitOnChar_of_not_mem _ _ hnl
  unfold parse_lino_file
  rw [show (String.mk ("source ".data ++ mid)).data = "source ".data ++ mid from rfl,
    hstrip, hsplit, List.foldl_cons, List.foldl_nil]
  simp only [parseLinoLine, hstrip]
  rw [show startsWithL "from ".data ("source ".data ++ mid) = false from rfl,
    show startsWithL "to ".data ("source ".data ++ mid) = false from rfl,
    show startsWithL "date ".data ("source ".data ++ mid) = false from rfl,
    show startsWithL "value ".data ("source ".data ++ mid) = false from rfl]
  simp only [Bool.false_eq_true, if_false]
  rw [show "source ".data ++ mid = "source ".data ++ mid from rfl]
  rw [show startsWithL "source ".data ("source ".data ++ mid) = true from
    startsWithL_append_self _ _]
  simp only [if_true]
  have hdrop : ("source ".data ++ mid).drop 7 = mid := by
    rw [show (7 : Nat) = ("source ".data).length from rfl]
    exact List.drop_left _ _
  rw [hdrop]
  have hmidws : pyStripWs mid = mid := pyStripWs_no_ws mid hws
  rw [hmidws]
  have hquotes : pyStripChars quoteChars mid = core := by
    unfold pyStripChars
    have hfront : List.dropWhile (charIn quoteChars) (pre ++ (core ++ post))
        = core ++ post := by
      rw [dropWhile_append_of_all _ pre (core ++ post) hpre]
      apply dropWhile_eq_self_of_head
      intro c hc
      cases core with
      | nil => exact absurd rfl hcore
      | cons a as =>
        simp only [List.cons_append, List.head?_cons, Option.some.injEq] at hc
        subst hc
        exact hhead a rfl
    rw [hmid, List.append_assoc, hfront]
    have hback : List.dropWhile (charIn quoteChars) (core ++ post).reverse
        = core.reverse := by
      rw [List.reverse_append, dropWhile_append_of_all _ post.reverse core.reverse
        (fun c hc => hpost c (List.mem_reverse.mp hc))]
      apply dropWhile_eq_self_of_head
      intro c hc
      rw [List.head?_reverse] at hc
      exact hlast c hc
    rw [hback, List.reverse_reverse]
  rw [hquotes]

/-- Witness for the amended C9 at the doubly-quoted source `''x''`:
both layers are stripped, leaving `x`. -/
theorem parse_source_strips_all_quotes_amended_witness :
    (parse_lino_file (String.mk
        ("source ".data ++ (['\'', '\''] ++ ['x'] ++ ['\'', '\''])))).src
      = some (String.mk ['x']) :=
  parse_source_strips_all_quotes_amended ['\'', '\''] ['x'] ['\'', '\'']
    (by decide) (by decide) (by decide) (by decide) (by decide) (by decide)
